import Mathlib

/-!
Verification development for a small MERN-style bug tracker.

The embedded code:
- frontend component BugList (frontend/components/BugList.jsx): pure view
  selection among loading / error / empty / list states;
- frontend component ErrorBoundary (frontend/components/ErrorBoundary.jsx):
  a React class component catching render-time exceptions of its subtree;
- frontend component BugForm (source embedded in
  frontend/__test__/BugList.test.jsx): local draft state, client-side
  validation and delegated submission;
- application view App (source embedded in backend/tests/bug.test.js):
  fetch/create/delete/status-change handlers over an axios-backed store;
- backend store (backend/models/Bug.js, backend/controllers/bugController.js):
  a mongoose schema with trim/required/maxlength/enum validation and a
  list endpoint sorted by creation time descending.

JavaScript strings are modelled as Lean String; the JavaScript
String.prototype.trim is modelled executably over the character list
(jsTrim) so that concrete instances evaluate in the kernel.  Nullable
JavaScript values are modelled with Option; truthiness of a nullable
string is made explicit (strTruthy, jsOrElse).
-/

namespace BugTracker

/-- Model of the JavaScript value.trim() used by the form check and by the
mongoose trim setter: removes leading and trailing whitespace characters. -/
def jsTrim (s : String) : String :=
  String.mk (((s.data.dropWhile Char.isWhitespace).reverse.dropWhile Char.isWhitespace).reverse)

/-- A string contains at least one non-whitespace character, i.e. it is
neither empty nor whitespace-only. -/
def hasNonWhitespace (s : String) : Bool :=
  s.data.any (fun c => !c.isWhitespace)

/-- Truthiness of a nullable JavaScript string, as used by checks such as
if (error): null/undefined and the empty string are falsy. -/
def strTruthy : Option String → Bool
  | none => false
  | some s => s != ""

/-- Model of the JavaScript expression m || fallback on a nullable string m:
the fallback is used when m is null/undefined or empty. -/
def jsOrElse (m : Option String) (fallback : String) : String :=
  match m with
  | some s => if s = "" then fallback else s
  | none => fallback

/-! Frontend record shape, as produced by the backend and consumed by the
list components (the _id field is called id here). -/

structure FBug where
  id : String
  title : String
  description : String
  status : String
  createdAt : Nat
deriving DecidableEq

/-! BugList component (frontend/components/BugList.jsx).  The component is a
pure function of its props returning one of four mutually exclusive views. -/

inductive BugListView where
  | loadingView
  | errorView (message : String)
  | emptyView
  | listView (items : List FBug)
deriving DecidableEq

namespace BugList

/-- Embedding of the body of BugList: the guards appear in the source order
(loading first, then error, then the empty check, then the list). -/
def render (bugs : List FBug) (loading : Bool) (error : Option String) : BugListView :=
  if loading then .loadingView
  else if strTruthy error then .errorView (error.getD "")
  else if bugs.length = 0 then .emptyView
  else .listView bugs

end BugList

/-! ErrorBoundary component (frontend/components/ErrorBoundary.jsx). -/

/-- The kinds of values a JavaScript throw statement can raise at the
boundary: an Error instance, a plain string, a plain object with or without
a message field, null, or undefined. -/
inductive JSValue where
  | errObj (message : String)
  | strVal (s : String)
  | objWithMessage (message : String)
  | objPlain
  | nullVal
  | undefinedVal
deriving DecidableEq

/-- Model of the optional-chained property read v?.message: only an Error
instance or a plain object carrying a message field yields a string; a
primitive string, a bare object, null and undefined all yield undefined. -/
def JSValue.optChainMessage : JSValue → Option String
  | .errObj m => some m
  | .objWithMessage m => some m
  | .strVal _ => none
  | .objPlain => none
  | .nullVal => none
  | .undefinedVal => none

/-- Component state of the boundary: hasError together with the stored
raised value (none models the null stored initially and after reset). -/
structure BoundaryState where
  hasError : Bool
  error : Option JSValue
deriving DecidableEq

/-- Children handed to the boundary: they either render some content or
raise a value while rendering. -/
inductive Children where
  | good (content : String)
  | throws (e : JSValue)
deriving DecidableEq

/-- What the boundary renders: either the fallback card (heading, message
text, and whether a recovery control is present) or the children. -/
inductive BoundaryView where
  | fallbackView (heading message : String) (hasRecoveryControl : Bool)
  | childrenView (content : String)
deriving DecidableEq

def genericErrorText : String := "An unexpected error occurred."

/-- Embedding of the rendered expression
this.state.error?.message || (generic text). -/
def displayedMessage (stored : Option JSValue) : String :=
  match stored.bind JSValue.optChainMessage with
  | some m => if m = "" then genericErrorText else m
  | none => genericErrorText

namespace ErrorBoundary

/-- Embedding of static getDerivedStateFromError(error). -/
def getDerivedStateFromError (e : JSValue) : BoundaryState :=
  ⟨true, some e⟩

/-- Embedding of componentDidCatch(error, errorInfo).  The body in the
source is empty (only a comment), so the hook changes no state and writes
nothing to any sink; the second component is the list of sink writes. -/
def componentDidCatch (s : BoundaryState) (_error : JSValue) (_errorInfo : String) :
    BoundaryState × List String :=
  (s, [])

/-- Embedding of handleReset: clears both the flag and the stored value. -/
def handleReset (_s : BoundaryState) : BoundaryState :=
  ⟨false, none⟩

/-- The fallback card rendered while hasError holds. -/
def fallback (stored : Option JSValue) : BoundaryView :=
  .fallbackView "Something went wrong." (displayedMessage stored) true

/-- One render pass with React error-catching semantics: while in the
failed state the children are not rendered at all and the fallback is
shown; otherwise the children render, and a raised value drives the state
through getDerivedStateFromError and componentDidCatch before the fallback
is shown.  The pass never re-raises. -/
def renderStep (s : BoundaryState) (c : Children) : BoundaryState × BoundaryView :=
  if s.hasError then
    (s, fallback s.error)
  else
    match c with
    | .good content => (s, .childrenView content)
    | .throws e =>
        let s1 := getDerivedStateFromError e
        let s2 := (componentDidCatch s1 e "component stack").1
        (s2, fallback s2.error)

end ErrorBoundary

/-! BugForm component (source embedded in frontend/__test__/BugList.test.jsx). -/

/-- The local draft held by the form. -/
structure BugFormState where
  title : String
  description : String
  status : String
deriving DecidableEq

/-- Embedding of const initialState used by the form and its reset. -/
def initialState : BugFormState :=
  ⟨"", "", "open"⟩

/-- Outcome of one submit handling pass: the draft afterwards, the local
validation error text (empty when none is set), and the list of payloads
passed to the external onSubmit operation during the pass. -/
structure SubmitOutcome where
  form : BugFormState
  formError : String
  submitCalls : List BugFormState
deriving DecidableEq

namespace BugForm

/-- Embedding of handleSubmit.  The emptiness check trims both fields; on
failure the local error is set and onSubmit is not called; on success
onSubmit is called once with the untrimmed draft, while the previously
displayed local error text is left as it was. -/
def handleSubmit (prevError : String) (form : BugFormState) : SubmitOutcome :=
  if jsTrim form.title = "" ∨ jsTrim form.description = "" then
    ⟨form, "Title and description are required.", []⟩
  else
    ⟨form, prevError, [form]⟩

/-- The second argument the form passes to onSubmit, namely the callback
() => setForm(initialState). -/
def resetCallback : BugFormState → BugFormState :=
  fun _ => initialState

/-- The submission button as rendered from the loading prop: its disabled
attribute and its label. -/
structure SubmitControl where
  disabled : Bool
  label : String
deriving DecidableEq

def submitControl (loading : Bool) : SubmitControl :=
  ⟨loading, if loading then "Submitting..." else "Submit Bug"⟩

/-- A user click on the submission control: a disabled button fires no
submit event at all, otherwise handleSubmit runs. -/
def clickSubmit (loading : Bool) (prevError : String) (form : BugFormState) : SubmitOutcome :=
  if (submitControl loading).disabled then ⟨form, prevError, []⟩
  else handleSubmit prevError form

end BugForm

/-! App view (source embedded in backend/tests/bug.test.js). -/

/-- Local state of the App component. -/
structure AppState where
  bugs : List FBug
  loading : Bool
  error : String
  formLoading : Bool
  formError : String
deriving DecidableEq

/-- How a network call settles: ok with its payload, or a failure carrying
the optional server message err.response?.data?.message. -/
inductive NetResult (α : Type) where
  | ok (val : α)
  | fail (serverMessage : Option String)

namespace App

/-- Embedding of the part of fetchBugs run before await: the busy flag is
set and the previous error is cleared. -/
def fetchBugsStart (s : AppState) : AppState :=
  { s with loading := true, error := "" }

/-- Embedding of the rest of fetchBugs: the try branch stores the fetched
records, the catch branch stores only a readable message, and the finally
branch clears the busy flag on both paths. -/
def fetchBugsSettle (s : AppState) (r : NetResult (List FBug)) : AppState :=
  match r with
  | .ok data => { s with bugs := data, loading := false }
  | .fail m => { s with error := jsOrElse m "Failed to fetch bugs", loading := false }

/-- Effects of a settled create: the resulting state, whether the reset
callback supplied by the form was invoked, and whether a refetch of the
record list was started (the success branch mutates no local record state
directly, it refetches instead). -/
structure CreateOutcome where
  state : AppState
  didResetForm : Bool
  didRefetch : Bool

/-- Embedding of the part of handleCreateBug run before await. -/
def handleCreateBugStart (s : AppState) : AppState :=
  { s with formLoading := true, formError := "" }

/-- Embedding of the rest of handleCreateBug. -/
def handleCreateBugSettle (s : AppState) (r : NetResult Unit) : CreateOutcome :=
  match r with
  | .ok _ => ⟨{ s with formLoading := false }, true, true⟩
  | .fail m =>
      ⟨{ s with formError := jsOrElse m "Failed to create bug", formLoading := false },
       false, false⟩

/-- Embedding of the part of handleDeleteBug run before await. -/
def handleDeleteBugStart (s : AppState) : AppState :=
  { s with loading := true, error := "" }

/-- Embedding of the rest of handleDeleteBug: the success branch removes
the confirmed record locally, the catch branch stores only a message. -/
def handleDeleteBugSettle (s : AppState) (i : String) (r : NetResult Unit) : AppState :=
  match r with
  | .ok _ => { s with bugs := s.bugs.filter (fun b => b.id != i), loading := false }
  | .fail m => { s with error := jsOrElse m "Failed to delete bug", loading := false }

/-- Embedding of the part of handleStatusChange run before await. -/
def handleStatusChangeStart (s : AppState) : AppState :=
  { s with loading := true, error := "" }

/-- Embedding of the rest of handleStatusChange: the success branch patches
the confirmed record locally, the catch branch stores only a message. -/
def handleStatusChangeSettle (s : AppState) (i newStatus : String) (r : NetResult Unit) :
    AppState :=
  match r with
  | .ok _ =>
      { s with
        bugs := s.bugs.map (fun b => if b.id = i then { b with status := newStatus } else b),
        loading := false }
  | .fail m => { s with error := jsOrElse m "Failed to update status", loading := false }

end App

/-! Backend store (backend/models/Bug.js and
backend/controllers/bugController.js). -/

/-- The closed status enumeration of the schema. -/
def statusEnum : List String :=
  ["open", "in-progress", "resolved"]

/-- A stored record (timestamps reduced to the creation instant, which is
all the list ordering depends on). -/
structure BugRecord where
  title : String
  description : String
  status : String
  createdAt : Nat
deriving DecidableEq

/-- One schema text field with the trim setter, the required validator and
a maxlength validator: the stored value is the trimmed input, rejected when
it is empty after trimming or longer than the cap. -/
def validateField (v : String) (maxlen : Nat) : Option String :=
  let t := jsTrim v
  if t = "" then none
  else if t.length ≤ maxlen then some t else none

namespace Bug

/-- Embedding of createBug: new Bug({title, description, status}) followed
by save with schema validation.  A missing status takes the schema default
open; a present status must belong to the enumeration. -/
def create (title description status : Option String) (now : Nat) : Option BugRecord :=
  (title.bind (fun v => validateField v 100)).bind (fun t =>
  (description.bind (fun v => validateField v 1000)).bind (fun d =>
  match status with
  | none => some ⟨t, d, "open", now⟩
  | some st => if st ∈ statusEnum then some ⟨t, d, st, now⟩ else none))

/-- Embedding of updateBug: findByIdAndUpdate with runValidators, where
absent request fields are stripped and leave the stored field untouched,
and each supplied field passes through the setters and validators of the
schema. -/
def update (r : BugRecord) (title description status : Option String) : Option BugRecord :=
  (match title with
   | none => some r.title
   | some v => validateField v 100).bind (fun t =>
  (match description with
   | none => some r.description
   | some v => validateField v 1000).bind (fun d =>
  (match status with
   | none => some r.status
   | some st => if st ∈ statusEnum then some st else none).bind (fun st =>
  some { r with title := t, description := d, status := st })))

end Bug

/-- The record invariants claimed of every stored record: title and
description are non-empty, not whitespace-only, and within the caps (the
stored values are the trimmed inputs), and status belongs to the closed
enumeration. -/
@[reducible]
def validBugRecord (b : BugRecord) : Prop :=
  b.title ≠ "" ∧ hasNonWhitespace b.title = true ∧ b.title.length ≤ 100 ∧
  b.description ≠ "" ∧ hasNonWhitespace b.description = true ∧ b.description.length ≤ 1000 ∧
  b.status ∈ statusEnum

/-- The comparator realised by the descending createdAt sort: a record
sorts before another when its creation time is at least as recent. -/
def newestFirst (a b : BugRecord) : Bool :=
  decide (b.createdAt ≤ a.createdAt)

/-- Embedding of getBugs: find all records and sort them by createdAt
descending. -/
def getBugs (db : List BugRecord) : List BugRecord :=
  List.mergeSort db newestFirst

/-! Helper lemmas. -/

theorem head_dropWhile_false {α : Type} (p : α → Bool) (l : List α) (x : α) (xs : List α)
    (h : l.dropWhile p = x :: xs) : p x = false := by
  induction l with
  | nil => simp [List.dropWhile] at h
  | cons a as ih =>
      rw [List.dropWhile_cons] at h
      by_cases hpa : p a = true
      · rw [if_pos hpa] at h
        exact ih h
      · rw [if_neg hpa] at h
        cases h
        simpa using hpa

theorem jsTrim_nonempty_has_content (s : String) (h : jsTrim s ≠ "") :
    hasNonWhitespace (jsTrim s) = true := by
  unfold jsTrim at h ⊢
  cases hk : (s.data.dropWhile Char.isWhitespace).reverse.dropWhile Char.isWhitespace with
  | nil =>
      exfalso
      apply h
      rw [hk]
      rfl
  | cons x xs =>
      have hx : Char.isWhitespace x = false := head_dropWhile_false _ _ _ _ hk
      unfold hasNonWhitespace
      simp only [List.any_eq_true]
      refine ⟨x, ?_, by simp [hx]⟩
      simp

theorem validateField_sound (v : String) (n : Nat) (t : String)
    (h : validateField v n = some t) :
    t ≠ "" ∧ hasNonWhitespace t = true ∧ t.length ≤ n := by
  unfold validateField at h
  by_cases h0 : jsTrim v = ""
  · rw [if_pos h0] at h
    cases h
  · rw [if_neg h0] at h
    by_cases h1 : (jsTrim v).length ≤ n
    · rw [if_pos h1] at h
      cases h
      exact ⟨h0, jsTrim_nonempty_has_content v h0, h1⟩
    · rw [if_neg h1] at h
      cases h

/-! Claim theorems. -/

/-- C1: evaluation of the BugList view selection at loading=true together
with the non-empty error "Failed to fetch bugs" and an empty record list:
the component renders the loading view, because the loading guard precedes
the error guard in the source.  The claim states that the error view is
shown in this situation, so the code contradicts the claim (and the test of
the repository that asserts the loading text is absent in this case). -/
theorem bugList_loading_wins_eval :
    BugList.render [] true (some "Failed to fetch bugs") = BugListView.loadingView :=
  rfl

/-- C2: evaluation of one boundary render pass, from the normal state, of a
child that raises the plain string "String error": the boundary does enter
the failed state storing the raised value and renders the fallback without
re-raising, but the displayed description is the generic text rather than
the readable text of the raised string, because the source reads only
error?.message, which is undefined on a string primitive.  The claim (and
the tests of the repository, which expect the text "String error" to be
displayed) requires the description to be taken from the raised value. -/
theorem errorBoundary_thrown_string_eval :
    ErrorBoundary.renderStep ⟨false, none⟩ (Children.throws (JSValue.strVal "String error")) =
      (⟨true, some (JSValue.strVal "String error")⟩,
        BoundaryView.fallbackView "Something went wrong." "An unexpected error occurred." true) :=
  rfl

/-- C3: once the boundary state has hasError set, every further render pass
leaves the state unchanged and shows the fallback, whatever children are
supplied (failing or not); handleReset is the only way back, it clears the
stored failure value, and a render pass after it displays the current
children. -/
theorem errorBoundary_failed_persists_until_reset (s : BoundaryState) (h : s.hasError = true) :
    (∀ c, ErrorBoundary.renderStep s c = (s, ErrorBoundary.fallback s.error)) ∧
    ErrorBoundary.handleReset s = ⟨false, none⟩ ∧
    (∀ content, ErrorBoundary.renderStep (ErrorBoundary.handleReset s) (Children.good content) =
      (⟨false, none⟩, BoundaryView.childrenView content)) := by
  refine ⟨fun c => ?_, rfl, fun content => rfl⟩
  simp [ErrorBoundary.renderStep, h]

/-- C3 witness: the persistence and reset theorem instantiated at the
failed state storing the error object with message "Test error message" and
at the non-failing children "New content". -/
theorem errorBoundary_failed_persists_until_reset_witness :
    ErrorBoundary.renderStep ⟨true, some (JSValue.errObj "Test error message")⟩
        (Children.good "New content") =
      (⟨true, some (JSValue.errObj "Test error message")⟩,
        ErrorBoundary.fallback (some (JSValue.errObj "Test error message"))) ∧
    ErrorBoundary.renderStep
        (ErrorBoundary.handleReset ⟨true, some (JSValue.errObj "Test error message")⟩)
        (Children.good "New content") =
      (⟨false, none⟩, BoundaryView.childrenView "New content") :=
  ⟨(errorBoundary_failed_persists_until_reset
      ⟨true, some (JSValue.errObj "Test error message")⟩ rfl).1 (Children.good "New content"),
   (errorBoundary_failed_persists_until_reset
      ⟨true, some (JSValue.errObj "Test error message")⟩ rfl).2.2 "New content"⟩

/-- C4 counterexample: at the concrete transition caused by the raised
error object with message "Test error message", the componentDidCatch hook
writes nothing to any observability sink — its list of sink writes is
empty, refuting the claim that the failure is reported (logged) at the
moment of the transition. -/
theorem componentDidCatch_reports_nothing :
    ¬ ((ErrorBoundary.componentDidCatch ⟨true, some (JSValue.errObj "Test error message")⟩
        (JSValue.errObj "Test error message") "component stack").2 ≠ []) :=
  fun h => h rfl

/-- C4 amended: componentDidCatch is invoked at the transition to the
failed state but its body is empty; it performs no reporting, and it
neither raises nor alters the boundary state or render outcome. -/
theorem componentDidCatch_is_noop (s : BoundaryState) (e : JSValue) (info : String) :
    ErrorBoundary.componentDidCatch s e info = (s, []) :=
  rfl

/-- C5: whenever the draft title or the draft description is empty after
trimming (including the whitespace-only cases), the submit handler sets the
local validation error, passes nothing to the external submission
operation, and leaves the draft field values themselves unchanged. -/
theorem bugForm_invalid_submit (prevError : String) (form : BugFormState)
    (h : jsTrim form.title = "" ∨ jsTrim form.description = "") :
    BugForm.handleSubmit prevError form =
      ⟨form, "Title and description are required.", []⟩ := by
  unfold BugForm.handleSubmit
  rw [if_pos h]

/-- C5 witness: the invalid-submit theorem instantiated at the draft whose
title is whitespace-only and whose description is "anything". -/
theorem bugForm_invalid_submit_witness :
    BugForm.handleSubmit "" ⟨"   ", "anything", "open"⟩ =
      ⟨⟨"   ", "anything", "open"⟩, "Title and description are required.", []⟩ :=
  bugForm_invalid_submit "" ⟨"   ", "anything", "open"⟩ (Or.inl (by decide))

/-- C6: whenever both trimmed fields are non-empty, the submit handler
passes exactly one payload — the current draft, untrimmed — to the external
submission operation together with the reset callback, does not clear the
draft itself (the local error text is also left as it was), and the reset
callback, when invoked, restores the initial draft, whose title and
description are both empty. -/
theorem bugForm_valid_submit (prevError : String) (form : BugFormState)
    (ht : jsTrim form.title ≠ "") (hd : jsTrim form.description ≠ "") :
    BugForm.handleSubmit prevError form = ⟨form, prevError, [form]⟩ ∧
    (∀ f, BugForm.resetCallback f = initialState) ∧
    initialState.title = "" ∧ initialState.description = "" := by
  refine ⟨?_, fun f => rfl, rfl, rfl⟩
  unfold BugForm.handleSubmit
  rw [if_neg (fun hor => hor.elim ht hd)]

/-- C6 witness: the valid-submit theorem instantiated at the draft with
title "Test Bug", description "Test Description" and status "in-progress". -/
theorem bugForm_valid_submit_witness :
    BugForm.handleSubmit "" ⟨"Test Bug", "Test Description", "in-progress"⟩ =
      ⟨⟨"Test Bug", "Test Description", "in-progress"⟩, "",
        [⟨"Test Bug", "Test Description", "in-progress"⟩]⟩ ∧
    BugForm.resetCallback ⟨"Test Bug", "Test Description", "in-progress"⟩ = initialState :=
  ⟨(bugForm_valid_submit "" ⟨"Test Bug", "Test Description", "in-progress"⟩
      (by decide) (by decide)).1,
   (bugForm_valid_submit "" ⟨"Test Bug", "Test Description", "in-progress"⟩
      (by decide) (by decide)).2.1 ⟨"Test Bug", "Test Description", "in-progress"⟩⟩

/-- C7: with the loading input true, the submission control is disabled and
carries the busy label, and a simulated click on it yields no call to the
external submission operation (and no other change). -/
theorem bugForm_loading_disables_submit :
    (BugForm.submitControl true).disabled = true ∧
    (BugForm.submitControl true).label = "Submitting..." ∧
    (∀ prevError form, BugForm.clickSubmit true prevError form = ⟨form, prevError, []⟩) :=
  ⟨rfl, rfl, fun _ _ => rfl⟩

/-- C8: each of the four operation handlers of the App view sets its busy
flag before the network call; the settling step clears that flag whatever
the outcome of the call; and on a failed call the handler only stores the
readable message while leaving the locally held record set untouched — in
particular a failed fetch keeps the prior record set, and a failed create
neither resets the form nor triggers a refetch. -/
theorem app_handlers_busy_and_failure_discipline :
    (∀ s, (App.fetchBugsStart s).loading = true ∧ (App.fetchBugsStart s).error = "") ∧
    (∀ s r, (App.fetchBugsSettle s r).loading = false) ∧
    (∀ s m, (App.fetchBugsSettle s (.fail m)).bugs = s.bugs ∧
      (App.fetchBugsSettle s (.fail m)).error = jsOrElse m "Failed to fetch bugs") ∧
    (∀ s, (App.handleCreateBugStart s).formLoading = true ∧
      (App.handleCreateBugStart s).formError = "") ∧
    (∀ s r, (App.handleCreateBugSettle s r).state.formLoading = false) ∧
    (∀ s m, (App.handleCreateBugSettle s (.fail m)).state.bugs = s.bugs ∧
      (App.handleCreateBugSettle s (.fail m)).didResetForm = false ∧
      (App.handleCreateBugSettle s (.fail m)).didRefetch = false ∧
      (App.handleCreateBugSettle s (.fail m)).state.formError =
        jsOrElse m "Failed to create bug") ∧
    (∀ s, (App.handleDeleteBugStart s).loading = true ∧
      (App.handleDeleteBugStart s).error = "") ∧
    (∀ s i r, (App.handleDeleteBugSettle s i r).loading = false) ∧
    (∀ s i m, (App.handleDeleteBugSettle s i (.fail m)).bugs = s.bugs ∧
      (App.handleDeleteBugSettle s i (.fail m)).error = jsOrElse m "Failed to delete bug") ∧
    (∀ s, (App.handleStatusChangeStart s).loading = true ∧
      (App.handleStatusChangeStart s).error = "") ∧
    (∀ s i st r, (App.handleStatusChangeSettle s i st r).loading = false) ∧
    (∀ s i st m, (App.handleStatusChangeSettle s i st (.fail m)).bugs = s.bugs ∧
      (App.handleStatusChangeSettle s i st (.fail m)).error =
        jsOrElse m "Failed to update status") :=
  ⟨fun _ => ⟨rfl, rfl⟩,
   fun _ r => by cases r <;> rfl,
   fun _ _ => ⟨rfl, rfl⟩,
   fun _ => ⟨rfl, rfl⟩,
   fun _ r => by cases r <;> rfl,
   fun _ _ => ⟨rfl, rfl, rfl, rfl⟩,
   fun _ => ⟨rfl, rfl⟩,
   fun _ _ r => by cases r <;> rfl,
   fun _ _ _ => ⟨rfl, rfl⟩,
   fun _ => ⟨rfl, rfl⟩,
   fun _ _ _ r => by cases r <;> rfl,
   fun _ _ _ _ => ⟨rfl, rfl⟩⟩

/-- C9: every record the store accepts satisfies the schema invariants —
title and description non-empty, not whitespace-only, and within the
100/1000 caps (stored values being the trimmed inputs), and status inside
the closed enumeration — the status defaults to open when omitted at
creation, and every accepted update preserves the invariants. -/
theorem bug_store_invariants :
    (∀ t d st now b, Bug.create t d st now = some b → validBugRecord b) ∧
    (∀ t d now b, Bug.create t d none now = some b → b.status = "open") ∧
    (∀ r t d st b, validBugRecord r → Bug.update r t d st = some b → validBugRecord b) := by
  refine ⟨?_, ?_, ?_⟩
  · intro t d st now b h
    simp only [Bug.create, Option.bind_eq_some] at h
    obtain ⟨tv, htv, h⟩ := h
    obtain ⟨dv, hdv, h⟩ := h
    obtain ⟨t0, ht0, htval⟩ : ∃ t0, t = some t0 ∧ validateField t0 100 = some tv := by
      cases t with
      | none => simp at htv
      | some t0 => exact ⟨t0, rfl, by simpa using htv⟩
    obtain ⟨d0, hd0, hdval⟩ : ∃ d0, d = some d0 ∧ validateField d0 1000 = some dv := by
      cases d with
      | none => simp at hdv
      | some d0 => exact ⟨d0, rfl, by simpa using hdv⟩
    obtain ⟨ht1, ht2, ht3⟩ := validateField_sound _ _ _ htval
    obtain ⟨hd1, hd2, hd3⟩ := validateField_sound _ _ _ hdval
    cases st with
    | none =>
        cases h
        exact ⟨ht1, ht2, ht3, hd1, hd2, hd3, by simp [statusEnum]⟩
    | some stv =>
        replace h :
            (if stv ∈ statusEnum then
              some (⟨tv, dv, stv, now⟩ : BugRecord) else none) = some b := h
        by_cases hmem : stv ∈ statusEnum
        · rw [if_pos hmem] at h
          cases h
          exact ⟨ht1, ht2, ht3, hd1, hd2, hd3, hmem⟩
        · rw [if_neg hmem] at h
          cases h
  · intro t d now b h
    simp only [Bug.create, Option.bind_eq_some] at h
    obtain ⟨tv, htv, h⟩ := h
    obtain ⟨dv, hdv, h⟩ := h
    cases h
    rfl
  · intro r t d st b hr h
    obtain ⟨hr1, hr2, hr3, hr4, hr5, hr6, hr7⟩ := hr
    simp only [Bug.update, Option.bind_eq_some] at h
    obtain ⟨tv, htv, h⟩ := h
    obtain ⟨dv, hdv, h⟩ := h
    obtain ⟨sv, hsv, h⟩ := h
    cases h
    have htv : tv ≠ "" ∧ hasNonWhitespace tv = true ∧ tv.length ≤ 100 := by
      cases t with
      | none =>
          cases htv
          exact ⟨hr1, hr2, hr3⟩
      | some v => exact validateField_sound _ _ _ htv
    have hdv : dv ≠ "" ∧ hasNonWhitespace dv = true ∧ dv.length ≤ 1000 := by
      cases d with
      | none =>
          cases hdv
          exact ⟨hr4, hr5, hr6⟩
      | some v => exact validateField_sound _ _ _ hdv
    have hsv : sv ∈ statusEnum := by
      cases st with
      | none =>
          cases hsv
          exact hr7
      | some v =>
          replace hsv : (if v ∈ statusEnum then some v else none) = some sv := hsv
          by_cases hmem : v ∈ statusEnum
          · rw [if_pos hmem] at hsv
            cases hsv
            exact hmem
          · rw [if_neg hmem] at hsv
            cases hsv
    exact ⟨htv.1, htv.2.1, htv.2.2, hdv.1, hdv.2.1, hdv.2.2, hsv⟩

/-- C9 witness: the invariant theorem instantiated at a concrete accepted
creation (with surrounding whitespace in the input title and an explicit
status), at a concrete creation with the status omitted, and at a concrete
accepted update of a valid record. -/
theorem bug_store_invariants_witness :
    validBugRecord ⟨"Test Bug", "Test Description", "in-progress", 5⟩ ∧
    (⟨"Test Bug", "Test Description", "open", 3⟩ : BugRecord).status = "open" ∧
    validBugRecord ⟨"New title", "Old description", "resolved", 7⟩ :=
  ⟨bug_store_invariants.1 (some "  Test Bug ") (some "Test Description")
      (some "in-progress") 5 ⟨"Test Bug", "Test Description", "in-progress", 5⟩ (by decide),
   bug_store_invariants.2.1 (some "Test Bug") (some "Test Description") 3
      ⟨"Test Bug", "Test Description", "open", 3⟩ (by decide),
   bug_store_invariants.2.2 ⟨"Old title", "Old description", "open", 7⟩
      (some " New title ") none (some "resolved")
      ⟨"New title", "Old description", "resolved", 7⟩ (by decide) (by decide)⟩

/-- C10: for every state of the stored collection, the list operation
returns all stored records (a permutation of the collection) ordered by
creation time descending, newest first. -/
theorem getBugs_returns_all_newest_first (db : List BugRecord) :
    (getBugs db).Perm db ∧
    List.Sorted (fun a b : BugRecord => b.createdAt ≤ a.createdAt) (getBugs db) := by
  constructor
  · exact List.mergeSort_perm db _
  · have htrans : ∀ a b c : BugRecord,
        newestFirst a b = true → newestFirst b c = true → newestFirst a c = true := by
      intro a b c hab hbc
      unfold newestFirst at hab hbc ⊢
      simp only [decide_eq_true_eq] at hab hbc ⊢
      omega
    have htotal : ∀ a b : BugRecord, (newestFirst a b || newestFirst b a) = true := by
      intro a b
      unfold newestFirst
      simp only [Bool.or_eq_true, decide_eq_true_eq]
      omega
    have h := List.sorted_mergeSort htrans htotal db
    exact List.Pairwise.imp
      (fun hab => by
        unfold newestFirst at hab
        exact of_decide_eq_true hab) h

end BugTracker
